import Mathlib

/-!
Verification of the Blueprint Revision & Build Pipeline of AgentPro.

The client-side renderer is embedded from
`src/generated_apps/test_blueprint/app.js` (router, renderComponent,
bindItems, renderTable, handleAction, renderForm, state seeding).
The deep-merge engine and the streaming gateway are documented in
`src/docs/REVISE_USAGE.md` but their implementation is not part of the
source tree, so they are modelled from the specification.
-/

namespace AgentPro

/-- A JSON-ish scalar value as it can appear in a runtime record:
a string, a number (`Date.now()` identifiers), a file payload
(file inputs store the chosen file) or JS `undefined`. -/
inductive Value where
  | str (s : String)
  | num (n : Nat)
  | fileV (name : String)
  | undef
deriving DecidableEq, Repr

/-- A runtime record: a JS object, modelled as an association list of
field name to value (keys unique by construction of the operations). -/
abbrev Record := List (String × Value)

/-- `a || b` on an optional string, with the JS falsiness of `""`. -/
def orFalsyOpt (a b : Option String) : Option String :=
  match a with
  | some s => if s = "" then b else some s
  | none => b

/-- `a || "lit"` on an optional string against a string literal default,
with the JS falsiness of `""`. -/
def orFalsyStr (a : Option String) (d : String) : String :=
  match a with
  | some s => if s = "" then d else s
  | none => d

/-- A table column, `{header, field}` as consumed by `renderTable`. -/
structure Column where
  header : Option String := none
  field : Option String := none
deriving DecidableEq, Repr

/-- A form field declaration, `{name, id, label, type}` as consumed by
`renderForm`. -/
structure FieldSpec where
  name : Option String := none
  id : Option String := none
  label : Option String := none
  type : Option String := none
deriving DecidableEq, Repr

/-- The `submit` sub-object a form component may carry
(`cfg.submit.collection`, `cfg.submit.to` in `renderForm`). -/
structure SubmitSpec where
  collection : Option String := none
  «to» : Option String := none
deriving DecidableEq, Repr

/-- A declarative UI component: the open record of fields the renderer
in `app.js` reads (`type`, `value`, `src`, `to`, `label`, `action`,
`items`, `collection`, `field`, `columns`, `rows`, `fields`,
`redirect`, `formId`, `submit`). Absent JS fields are `none`. -/
structure Component where
  type : Option String := none
  value : Option String := none
  src : Option String := none
  «to» : Option String := none
  label : Option String := none
  action : Option String := none
  items : Option (List Value) := none
  collection : Option String := none
  field : Option String := none
  columns : Option (List Column) := none
  rows : Option (List Record) := none
  fields : Option (List FieldSpec) := none
  redirect : Option String := none
  formId : Option String := none
  submit : Option SubmitSpec := none
deriving DecidableEq, Repr

/-- A route: `path` (canonical `#/...`), `title`, ordered components.
Absent JS fields are `none`; absent `components` is the empty list. -/
structure Route where
  path : Option String := none
  title : Option String := none
  components : List Component := []
deriving DecidableEq, Repr

/-- Modelled from the spec: the Blueprint — the full description of one
application version (`appName`, `uiTheme`, ordered `routes`,
`dataModels`, `sampleData`). The backend holding it is not in the
source tree. -/
structure Blueprint where
  appName : Option String := none
  uiTheme : Option String := none
  routes : List Route := []
  dataModels : List (String × List String) := []
  sampleData : List (String × List Record) := []
deriving DecidableEq, Repr

/-- Modelled from the spec: a PartialBlueprint (delta) — any subset of
Blueprint fields. -/
structure Delta where
  appName : Option String := none
  uiTheme : Option String := none
  routes : Option (List Route) := none
  dataModels : Option (List (String × List String)) := none
  sampleData : Option (List (String × List Record)) := none
deriving DecidableEq, Repr

/-- Modelled from the spec: de-duplicated set union of arrays with no
natural identity key — base order first, then delta-only items appended
in delta order; an item equal to an existing one is not duplicated. -/
def unionList [DecidableEq α] : List α → List α → List α
  | base, [] => base
  | base, x :: xs => if x ∈ base then unionList base xs else unionList (base ++ [x]) xs

/-- How one base item is updated by a keyed-merge delta: merged with
the first delta item of the same key when there is one, else kept. -/
def mergeKeyedUpd [DecidableEq κ] (key : α → κ) (comb : α → α → α)
    (delta : List α) (r : α) : α :=
  match delta.find? (fun d => decide (key d = key r)) with
  | some d => comb r d
  | none => r

/-- Modelled from the spec: merge of two arrays of identity-bearing
items, keyed by `key` — items of `base` first (each merged with the
first delta item of the same key via `comb`), then delta-only items
appended in delta order. -/
def mergeKeyed [DecidableEq κ] (key : α → κ) (comb : α → α → α)
    (base delta : List α) : List α :=
  (base.map (mergeKeyedUpd key comb delta))
  ++ delta.filter (fun d => !(base.any (fun r => decide (key r = key d))))

/-- Modelled from the spec: merging two routes with the same path —
scalar `title` replaced by the delta value when present, `components`
merged by the array-union rule (structural equality). -/
def mergeRoute (r dr : Route) : Route :=
  { path := r.path
    title := dr.title <|> r.title
    components := unionList r.components dr.components }

/-- Modelled from the spec: route lists merged by identity key `path`. -/
def mergeRoutes (base delta : List Route) : List Route :=
  mergeKeyed Route.path mergeRoute base delta

/-- Modelled from the spec: key-wise merge of an object-valued field
(`dataModels` / `sampleData` keyed by collection name); a key present
in both is merged with `f`, a key present only in the delta is added. -/
def mergeAssocWith (f : α → α → α) (base delta : List (String × α)) :
    List (String × α) :=
  mergeKeyed Prod.fst (fun p q => (p.1, f p.2 q.2)) base delta

/-- Modelled from the spec: `merge(base, delta) -> Blueprint`, pure and
deterministic — scalars replaced when present in the delta, object
fields merged key-wise, arrays merged by set-union / merge-by-identity. -/
def merge (b : Blueprint) (d : Delta) : Blueprint :=
  { appName := d.appName <|> b.appName
    uiTheme := d.uiTheme <|> b.uiTheme
    routes := mergeRoutes b.routes (d.routes.getD [])
    dataModels := mergeAssocWith unionList b.dataModels (d.dataModels.getD [])
    sampleData := mergeAssocWith unionList b.sampleData (d.sampleData.getD []) }

/-- A user record (`{username, name}`), as in `state.currentUser`. -/
structure User where
  username : String
  name : Option String := none
deriving DecidableEq, Repr

/-- A post as created by `renderComposer` and read by grid/feed/profile. -/
structure Post where
  id : Option Nat := none
  user : Option String := none
  img : Option String := none
  caption : Option String := none
  likes : Option Nat := none
  liked : Option Bool := none
  ts : Option Nat := none
deriving DecidableEq, Repr

/-- An inbox message (`{with, last}` in `state.messages`); the JS field
`with` is named `withUser` here. -/
structure Msg where
  withUser : String
  last : String
deriving DecidableEq, Repr

/-- A notification (`{text}` in `state.notifications`). -/
structure Notif where
  text : String
deriving DecidableEq, Repr

/-- The seed object `window.__SAMPLE__` (any key may be absent). -/
structure SampleData where
  users : Option (List User) := none
  posts : Option (List Post) := none
  notifications : Option (List Notif) := none
  messages : Option (List Msg) := none
  collections : Option (List (String × List Record)) := none
deriving DecidableEq, Repr

/-- The persisted client state parsed from `localStorage['bp_state']`
(any key may be absent — `JSON.parse(... || '{}')`). -/
structure Persisted where
  currentUser : Option User := none
  users : Option (List User) := none
  posts : Option (List Post) := none
  notifications : Option (List Notif) := none
  messages : Option (List Msg) := none
  collections : Option (List (String × List Record)) := none
deriving DecidableEq, Repr

/-- The in-memory RuntimeState (`state` in `app.js`) after seeding:
every key is present. -/
structure State where
  currentUser : User
  users : List User
  posts : List Post
  notifications : List Notif
  messages : List Msg
  collections : List (String × List Record)
deriving DecidableEq, Repr

/-- The startup seeding of `state` (lines 5-11 of `app.js`): each key is
taken from the persisted state when present, else from `__SAMPLE__`,
else a default. -/
def initState (p : Persisted) (sample : SampleData) : State :=
  let cu := match p.currentUser with
    | some u => u
    | none =>
      match sample.users with
      | some us => us.headD { username := "you", name := some "คุณ" }
      | none => { username := "you", name := some "คุณ" }
  { currentUser := cu
    users := (p.users <|> sample.users).getD [cu]
    posts := (p.posts <|> sample.posts).getD []
    notifications := (p.notifications <|> sample.notifications).getD []
    messages := (p.messages <|> sample.messages).getD []
    collections := (p.collections <|> sample.collections).getD [] }

/-- The client: the in-memory `state` plus the `localStorage` copy
written by `save()`. -/
structure Client where
  state : State
  storage : Option State
deriving DecidableEq, Repr

/-- Client startup: seed `state`, then `save()` (line 12 of `app.js`). -/
def boot (p : Persisted) (sample : SampleData) : Client :=
  let st := initState p sample
  { state := st, storage := some st }

/-- Replace the value at the first occurrence of key `k`, or append the
pair if `k` is absent — JS object assignment `o[k] = v`. -/
def setAssoc : List (String × α) → String → α → List (String × α)
  | [], k, v => [(k, v)]
  | (k', v') :: rest, k, v =>
    if k' = k then (k, v) :: rest else (k', v') :: setAssoc rest k v

/-- `{...data, k: v}` on a record: overwrite `k` in place or append. -/
def upsert : Record → String → Value → Record
  | [], k, v => [(k, v)]
  | (k', v') :: rest, k, v =>
    if k' = k then (k', v) :: rest else (k', v') :: upsert rest k v

/-- `state.collections[coll] = state.collections[coll] || []; push(r)`. -/
def pushColl (cs : List (String × List Record)) (k : String) (r : Record) :
    List (String × List Record) :=
  match cs.lookup k with
  | some rs => setAssoc cs k (rs ++ [r])
  | none => cs ++ [(k, [r])]

/-- A DOM input/textarea/select element as the submit handler reads it. -/
structure Input where
  name : Option String := none
  id : Option String := none
  placeholder : Option String := none
  type : String := "text"
  value : String := ""
  files : List String := []
deriving DecidableEq, Repr

/-- A form element: its inputs in document order. -/
abbrev FormEl := List Input

/-- The DOM as the submit handler queries it: `getElementById`. -/
abbrev Dom := List (String × FormEl)

/-- The record key chosen for an input:
`el.name || el.id || el.placeholder || 'field'`. -/
def keyOf (el : Input) : String :=
  orFalsyStr (orFalsyOpt el.name (orFalsyOpt el.id el.placeholder)) "field"

/-- The extracted value of an input:
`el.type==='file' ? (el.files && el.files[0]) : el.value`. -/
def valOf (el : Input) : Value :=
  if el.type = "file" then
    match el.files.head? with
    | some f => .fileV f
    | none => .undef
  else .str el.value

/-- `data[key] = value` over all inputs of a form, building the record. -/
def extract (form : FormEl) : Record :=
  form.foldl (fun acc el => upsert acc (keyOf el) (valOf el)) []

/-- `{...data, id: Date.now()}` — the stored record of one submission. -/
def mkRecord (data : Record) (now : Nat) : Record :=
  upsert data "id" (.num now)

/-- The result of a user action: change the location hash, or re-render
the current route in place (`router()`). -/
inductive Effect where
  | navigateTo (path : String)
  | rerender
deriving DecidableEq, Repr

/-- The `cfg` argument of `handleAction` (a component for buttons, a
synthesized object for form submission). -/
structure ActionCfg where
  «to» : Option String := none
  formId : Option String := none
  formEl : Option FormEl := none
  collection : Option String := none
  redirect : Option String := none
deriving DecidableEq, Repr

/-- `handleAction(action, cfg)` of `app.js`: `navigate` pushes the
target path; `submit` finds the form (`getElementById(cfg.formId ||
'__active_form') || cfg.__formEl`), extracts its named input values,
appends `{...data, id: Date.now()}` to `state.collections[cfg.collection
|| 'posts']`, saves, then navigates to `cfg.redirect` or re-renders. -/
def handleAction (action : String) (cfg : ActionCfg) (dom : Dom)
    (cl : Client) (now : Nat) : Client × Option Effect :=
  if action = "navigate" then
    (cl, some (.navigateTo (orFalsyStr cfg.to "#/")))
  else if action = "submit" then
    match (dom.lookup (orFalsyStr cfg.formId "__active_form")) <|> cfg.formEl with
    | none => (cl, none)
    | some form =>
      let data := extract form
      let coll := orFalsyStr cfg.collection "posts"
      let st := cl.state
      let st' := { st with collections := pushColl st.collections coll (mkRecord data now) }
      let cl' : Client := { state := st', storage := some st' }
      (cl', some (match cfg.redirect with
        | some r => if r = "" then .rerender else .navigateTo r
        | none => .rerender))
  else (cl, none)

/-- The `cfg` that `renderForm`'s submit handler passes to
`handleAction('submit', ...)`: the form element itself, the collection
`cfg.collection || cfg.submit.collection || 'forms'` and the redirect
`cfg.redirect || cfg.submit.to || null`. -/
def formSubmitCfg (c : Component) (form : FormEl) : ActionCfg :=
  { formEl := some form
    collection := some (orFalsyStr
      (orFalsyOpt c.collection (c.submit.bind SubmitSpec.collection)) "forms")
    redirect := orFalsyOpt c.redirect (c.submit.bind SubmitSpec.to) }

/-- Submitting a rendered form component. -/
def submitForm (c : Component) (form : FormEl) (dom : Dom) (cl : Client)
    (now : Nat) : Client × Option Effect :=
  handleAction "submit" (formSubmitCfg c form) dom cl now

/-- The `cfg` a button click passes: the component itself (projected to
the fields `handleAction` reads; a component has no `__formEl`). -/
def buttonCfg (c : Component) : ActionCfg :=
  { «to» := c.to, formId := c.formId, formEl := none,
    collection := c.collection, redirect := c.redirect }

/-- A button's click handler: `handleAction(c.action || 'navigate', c)`
with the component itself as `cfg`. -/
def buttonClick (c : Component) (dom : Dom) (cl : Client) (now : Nat) :
    Client × Option Effect :=
  handleAction (orFalsyStr c.action "navigate") (buttonCfg c) dom cl now

/-- Characters the `escapeHtml` regex class `[&<>"]` matches. -/
def isEsc (c : Char) : Bool :=
  c = '&' || c = '<' || c = '>' || c = '"'

/-- The entity an escaped character maps to. -/
def escOf (c : Char) : String :=
  if c = '&' then "&amp;"
  else if c = '<' then "&lt;"
  else if c = '>' then "&gt;"
  else "&quot;"

/-- `escapeHtml` of `app.js`: the regex `/[&<>"]+/g` matches maximal
runs; the replacement looks the whole run up in a single-character map,
so a run of length one becomes its entity and a longer run becomes the
string `"undefined"` (the lookup misses). -/
def escapeChars (l : List Char) : List Char :=
  match l with
  | [] => []
  | c :: cs =>
    if isEsc c then
      (if (cs.takeWhile isEsc).isEmpty then escOf c else "undefined").toList
        ++ escapeChars (cs.dropWhile isEsc)
    else c :: escapeChars cs
termination_by l.length
decreasing_by
  · exact Nat.lt_succ_of_le (List.Sublist.length_le (List.dropWhile_sublist _))
  · exact Nat.lt_succ_self _

/-- `escapeHtml(s)` on an already-defaulted string. -/
def escapeHtml (s : String) : String :=
  ⟨escapeChars s.data⟩

/-- JS `String(v)` for display of a bound item. -/
def Value.display : Value → String
  | .str s => s
  | .num n => toString n
  | .fileV _ => "[object File]"
  | .undef => "undefined"

/-- `JSON.stringify` of a scalar value. -/
def Value.toJson : Value → String
  | .str s => "\"" ++ s ++ "\""
  | .num n => toString n
  | .fileV _ => "\x7b\x7d"
  | .undef => "null"

/-- `JSON.stringify` of a record (keys with `undefined` values are
omitted). -/
def recordToJson (r : Record) : String :=
  "\x7b" ++ String.intercalate ","
    ((r.filter (fun p => !(p.2 == Value.undef))).map
      (fun p => "\"" ++ p.1 ++ "\":" ++ p.2.toJson)) ++ "\x7d"

/-- `bindItems(c)` of `app.js`: literal `c.items` when present, else the
named collection's rows projected to `c.field || 'name'` (falling back
to the row's JSON when the field is missing), else `[]`. -/
def bindItems (c : Component) (st : State) : List Value :=
  match c.items with
  | some its => its
  | none =>
    match c.collection with
    | some cn =>
      if cn = "" then []
      else
        let coll := (st.collections.lookup cn).getD []
        let fld := orFalsyStr c.field "name"
        coll.map (fun x =>
          match x.lookup fld with
          | some v => if v = .undef then .str (recordToJson x) else v
          | none => .str (recordToJson x))
    | none => []

/-- The images a `grid` shows:
`(state.posts||[]).map(p=>p.img).filter(Boolean)`. -/
def gridImgs (st : State) : List String :=
  st.posts.filterMap (fun p =>
    match p.img with
    | some s => if s = "" then none else some s
    | none => none)

/-- Insertion into a list of posts sorted by `ts` descending. -/
def insertByTs (p : Post) : List Post → List Post
  | [] => [p]
  | q :: qs =>
    if p.ts.getD 0 ≤ q.ts.getD 0 then q :: insertByTs p qs else p :: q :: qs

/-- `(state.posts||[]).sort((a,b)=>b.ts-a.ts)` — newest first. -/
def sortPosts (ps : List Post) : List Post :=
  ps.foldr insertByTs []

/-- A rendered node, one constructor per branch of `renderComponent`. -/
inductive Node where
  | card (html : String)
  | imageCard (src : String)
  | linkCard («to» : String) (label : String)
  | buttonNode (label : String)
  | listNode (items : List String)
  | tableNode (cols : List Column) (rows : List Record)
  | gridNode (imgs : List String)
  | formNode (fields : List FieldSpec)
  | composerNode
  | inboxNode (msgs : List Msg)
  | notificationsNode (ns : List Notif)
  | profileNode (u : User) (imgs : List String)
  | feedNode (posts : List Post)
  | todoNode
  | placeholderNode (kind : String)
deriving DecidableEq, Repr

/-- `renderTable(c)`: columns `c.columns || []`, rows `c.rows ||
(c.collection ? state.collections[c.collection] || [] : [])`. -/
def renderTable (c : Component) (st : State) : Node :=
  let cols := c.columns.getD []
  let rows :=
    match c.rows with
    | some rs => rs
    | none =>
      match c.collection with
      | some cn => if cn = "" then [] else (st.collections.lookup cn).getD []
      | none => []
  .tableNode cols rows

/-- The images shown on the profile grid: the current user's posts. -/
def profileImgs (st : State) : List String :=
  (st.posts.filter (fun p => p.user == some st.currentUser.username)).map
    (fun p => (p.img).getD "")

/-- The component kinds `renderComponent` knows. -/
def knownKinds : List String :=
  ["text", "image", "link", "button", "list", "table", "grid", "form",
   "composer", "inbox", "notifications", "profile", "feed", "todo"]

/-- `toLowerCase()` as a character-wise map over the string's data. -/
def toLowerJs (s : String) : String :=
  ⟨s.data.map Char.toLower⟩

/-- The effective kind of a component: `(c.type||'text').toLowerCase()`. -/
def kindOf (c : Component) : String :=
  toLowerJs (orFalsyStr c.type "text")

/-- `renderComponent(c)` of `app.js`: a pure function from component and
RuntimeState to a rendered node; the final line degrades any unknown
kind to the labeled placeholder `[t]`. -/
def renderComponent (c : Component) (st : State) : Node :=
  let t := kindOf c
  if t = "text" then .card (escapeHtml (orFalsyStr c.value ""))
  else if t = "image" then .imageCard (orFalsyStr c.src "")
  else if t = "link" then
    .linkCard (orFalsyStr c.to "#/") (escapeHtml (orFalsyStr c.label "ลิงก์"))
  else if t = "button" then .buttonNode (escapeHtml (orFalsyStr c.label "ปุ่ม"))
  else if t = "list" then
    .listNode ((bindItems c st).map (fun it => escapeHtml it.display))
  else if t = "table" then renderTable c st
  else if t = "grid" then .gridNode (gridImgs st)
  else if t = "form" then .formNode (c.fields.getD [])
  else if t = "composer" then .composerNode
  else if t = "inbox" then .inboxNode st.messages
  else if t = "notifications" then .notificationsNode st.notifications
  else if t = "profile" then .profileNode st.currentUser (profileImgs st)
  else if t = "feed" then .feedNode (sortPosts st.posts)
  else if t = "todo" then .todoNode
  else .placeholderNode t

/-- `renderRoute(r)`: every component of the route rendered in order. -/
def renderRoute (r : Route) (st : State) : List Node :=
  r.components.map (fun c => renderComponent c st)

/-- `routeMap()`: the JS object built by `map[r.path||'#/'] = r` over
the blueprint's routes (insertion order, later same-path routes
overwrite in place). -/
def routeMap (rs : List Route) : List (String × Route) :=
  rs.foldl (fun m r => setAssoc m (orFalsyStr r.path "#/") r) []

/-- `.replace('#','')` — JS string replace removes only the first
occurrence. -/
def dropFirstHashChars : List Char → List Char
  | [] => []
  | c :: cs => if c = '#' then cs else c :: dropFirstHashChars cs

/-- The hash with its first `#` removed. -/
def dropFirstHash (s : String) : String :=
  ⟨dropFirstHashChars s.data⟩

/-- The fallback route rendered when neither the requested path nor
`#/` is registered: `{components:[{type:'text',value:'ไม่พบหน้า'}]}`. -/
def notFoundRoute : Route :=
  { components := [{ type := some "text", value := some "ไม่พบหน้า" }] }

/-- `router()` of `app.js`: the hash is `location.hash ||
Object.keys(routes)[0] || '#/'`; the rendered route is `routes[full] ||
routes['#/'] ||` the not-found placeholder. `hash` is `none` when
`location.hash` is empty. -/
def router (hash : Option String) (rs : List Route) : Route :=
  let m := routeMap rs
  let hashStr := orFalsyStr (orFalsyOpt hash ((m.map Prod.fst).head?)) "#/"
  let full := "#" ++ dropFirstHash hashStr
  ((m.lookup full) <|> (m.lookup "#/")).getD notFoundRoute

/-- A build phase reported by a `status` event. -/
inductive Phase where
  | planning
  | scaffolding
  | generating
  | rendering
deriving DecidableEq, Repr

/-- A streaming-revise progress event (`status`, `file_start`,
`typing_line`, `file_complete`, `preview_ready`, `build_complete`,
`error`). -/
inductive BuildEvent where
  | status (phase : Phase) (message : String)
  | fileStart (name : String)
  | typingLine (name : String) (line : String)
  | fileComplete (name : String)
  | previewReady (content : String)
  | buildComplete (httpUrl downloadUrl : String)
  | errorEvent (message : String)
deriving DecidableEq, Repr

/-- One generated artifact streamed live as a
`file_start` → `typing_line`* → `file_complete` triple. -/
structure GenFile where
  name : String
  lines : List String
deriving DecidableEq, Repr

/-- What one build run produced: its status messages, the generated
files, the preview content, and the outcome (urls on success, a
message on failure). -/
structure BuildRun where
  statuses : List (Phase × String)
  files : List GenFile
  preview : String
  result : Except String (String × String)
deriving Repr

/-- The events of one streamed file. -/
def fileEvents (f : GenFile) : List BuildEvent :=
  .fileStart f.name :: (f.lines.map (.typingLine f.name) ++ [.fileComplete f.name])

/-- The terminal event of a build: `build_complete` with the two urls
on success, `error` with a message on failure. -/
def terminalEvent (b : BuildRun) : BuildEvent :=
  match b.result with
  | .ok (hu, du) => .buildComplete hu du
  | .error m => .errorEvent m

/-- Modelled from the spec: the Streaming Gateway's per-build event
sequence (the gateway implementation is not in the source tree; only
`src/docs/REVISE_USAGE.md` and §6 of the spec describe it): status
events, the per-file streaming triples, one `preview_ready` as soon as
renderable content exists, and one terminal event. -/
def streamEvents (b : BuildRun) : List BuildEvent :=
  (b.statuses.map fun pm => .status pm.1 pm.2)
  ++ (b.files.flatMap fileEvents)
  ++ [.previewReady b.preview]
  ++ [terminalEvent b]

/-- Is the event `preview_ready`? -/
def isPreview : BuildEvent → Bool
  | .previewReady _ => true
  | _ => false

/-- Is the event terminal (`build_complete` or `error`)? -/
def isTerminal : BuildEvent → Bool
  | .buildComplete _ _ => true
  | .errorEvent _ => true
  | _ => false

/-! ### Lemmas about the merge algorithm -/

theorem mem_unionList_left [DecidableEq α] {x : α} {b d : List α} (h : x ∈ b) :
    x ∈ unionList b d := by
  induction d generalizing b with
  | nil => simpa [unionList]
  | cons y ys ih =>
    simp only [unionList]
    split
    · exact ih h
    · exact ih (by simp [h])

theorem mem_unionList_right [DecidableEq α] {x : α} {b d : List α} (h : x ∈ d) :
    x ∈ unionList b d := by
  induction d generalizing b with
  | nil => cases h
  | cons y ys ih =>
    simp only [unionList]
    rcases List.mem_cons.mp h with rfl | hx
    · split
      · exact mem_unionList_left ‹_›
      · exact mem_unionList_left (by simp)
    · split <;> exact ih hx

theorem unionList_eq_of_subset [DecidableEq α] {b d : List α}
    (h : ∀ x ∈ d, x ∈ b) : unionList b d = b := by
  induction d generalizing b with
  | nil => rfl
  | cons y ys ih =>
    simp only [unionList]
    rw [if_pos (h y (by simp))]
    exact ih fun x hx => h x (by simp [hx])

theorem unionList_idem [DecidableEq α] (b d : List α) :
    unionList (unionList b d) d = unionList b d :=
  unionList_eq_of_subset fun _ hx => mem_unionList_right hx

theorem unionList_self [DecidableEq α] (d : List α) : unionList d d = d :=
  unionList_eq_of_subset fun _ hx => hx

theorem opt_orElse_absorb (a b : Option α) : (a <|> (a <|> b)) = (a <|> b) := by
  cases a <;> rfl

theorem opt_orElse_self (a : Option α) : (a <|> a) = a := by
  cases a <;> rfl

theorem mergeRoute_path (r dr : Route) : (mergeRoute r dr).path = r.path := rfl

theorem mergeRoute_idem (r dr : Route) :
    mergeRoute (mergeRoute r dr) dr = mergeRoute r dr := by
  simp [mergeRoute, unionList_idem, opt_orElse_absorb]

theorem mergeRoute_self (dr : Route) : mergeRoute dr dr = dr := by
  simp [mergeRoute, unionList_self, opt_orElse_self]

theorem find_first_of_nodup_key [DecidableEq κ] (key : α → κ) {l : List α}
    (hnd : (l.map key).Nodup) {d : α} (hd : d ∈ l) :
    l.find? (fun x => decide (key x = key d)) = some d := by
  induction l with
  | nil => cases hd
  | cons a rest ih =>
    rcases List.mem_cons.mp hd with rfl | hmem
    · exact List.find?_cons_of_pos _ (by simp)
    · have hne : key a ≠ key d := by
        intro he
        have hmm : key d ∈ rest.map key := List.mem_map_of_mem key hmem
        rw [← he] at hmm
        exact (List.nodup_cons.mp hnd).1 hmm
      rw [List.find?_cons_of_neg _ (by simp [hne])]
      exact ih (List.nodup_cons.mp hnd).2 hmem

theorem key_mergeKeyedUpd [DecidableEq κ] (key : α → κ) (comb : α → α → α)
    (hkey : ∀ r d, key (comb r d) = key r) (delta : List α) (r : α) :
    key (mergeKeyedUpd key comb delta r) = key r := by
  unfold mergeKeyedUpd
  split
  · exact hkey _ _
  · rfl

theorem any_key_mergeKeyed [DecidableEq κ] (key : α → κ) (comb : α → α → α)
    (hkey : ∀ r d, key (comb r d) = key r) (base delta : List α)
    {d : α} (hd : d ∈ delta) :
    (mergeKeyed key comb base delta).any (fun r => decide (key r = key d)) = true := by
  rw [List.any_eq_true]
  by_cases hb : base.any (fun r => decide (key r = key d)) = true
  · rw [List.any_eq_true] at hb
    obtain ⟨r, hr, hkr⟩ := hb
    refine ⟨mergeKeyedUpd key comb delta r, ?_, ?_⟩
    · exact List.mem_append_left _ (List.mem_map_of_mem _ hr)
    · rw [key_mergeKeyedUpd key comb hkey]
      exact hkr
  · refine ⟨d, ?_, by simp⟩
    refine List.mem_append_right _ ?_
    rw [List.mem_filter]
    exact ⟨hd, by simp [hb]⟩

theorem mergeKeyedUpd_idem [DecidableEq κ] (key : α → κ) (comb : α → α → α)
    (hkey : ∀ r d, key (comb r d) = key r)
    (hidem : ∀ r d, comb (comb r d) d = comb r d)
    (delta : List α) (r : α) :
    mergeKeyedUpd key comb delta (mergeKeyedUpd key comb delta r)
      = mergeKeyedUpd key comb delta r := by
  rcases hfind : delta.find? (fun d => decide (key d = key r)) with _ | dr
  · simp [mergeKeyedUpd, hfind]
  · have h1 : mergeKeyedUpd key comb delta r = comb r dr := by
      simp [mergeKeyedUpd, hfind]
    rw [h1]
    have h2 : (fun d => decide (key d = key (comb r dr))) = (fun d => decide (key d = key r)) := by
      funext x
      rw [hkey]
    simp only [mergeKeyedUpd, h2, hfind]
    exact hidem r dr

theorem mergeKeyed_idem [DecidableEq κ] (key : α → κ) (comb : α → α → α)
    (hkey : ∀ r d, key (comb r d) = key r)
    (hidem : ∀ r d, comb (comb r d) d = comb r d)
    (hself : ∀ d, comb d d = d)
    (base delta : List α) (hnd : (delta.map key).Nodup) :
    mergeKeyed key comb (mergeKeyed key comb base delta) delta
      = mergeKeyed key comb base delta := by
  have hfilter :
      delta.filter (fun d =>
        !((mergeKeyed key comb base delta).any (fun r => decide (key r = key d)))) = [] := by
    rw [List.filter_eq_nil_iff]
    intro d hd
    simp [any_key_mergeKeyed key comb hkey base delta hd]
  have hmap : ∀ r' ∈ mergeKeyed key comb base delta,
      mergeKeyedUpd key comb delta r' = r' := by
    intro r' hr'
    rcases List.mem_append.mp hr' with hl | hrt
    · obtain ⟨r, _, rfl⟩ := List.mem_map.mp hl
      exact mergeKeyedUpd_idem key comb hkey hidem delta r
    · have hd : r' ∈ delta := (List.mem_filter.mp hrt).1
      unfold mergeKeyedUpd
      rw [find_first_of_nodup_key key hnd hd]
      exact hself r'
  conv_lhs => rw [mergeKeyed]
  rw [hfilter, List.append_nil]
  calc (mergeKeyed key comb base delta).map (mergeKeyedUpd key comb delta)
      = (mergeKeyed key comb base delta).map id := List.map_congr_left hmap
    _ = mergeKeyed key comb base delta := List.map_id _

/-- C1: Merge is idempotent — for every Blueprint `B` and delta `D`
(well-formed: route paths and collection keys unique within `D`, as the
data model requires), `merge (merge B D) D = merge B D`: applying the
same delta a second time changes nothing, so no duplicate routes,
components or rows appear. Merge is a pure Lean function of its two
arguments, so it is deterministic and leaves `B` untouched. -/
theorem merge_idempotent (b : Blueprint) (d : Delta)
    (hr : ((d.routes.getD []).map Route.path).Nodup)
    (hm : ((d.dataModels.getD []).map Prod.fst).Nodup)
    (hs : ((d.sampleData.getD []).map Prod.fst).Nodup) :
    merge (merge b d) d = merge b d := by
  unfold merge
  simp only [Blueprint.mk.injEq]
  refine ⟨opt_orElse_absorb _ _, opt_orElse_absorb _ _, ?_, ?_, ?_⟩
  · exact mergeKeyed_idem Route.path mergeRoute (fun _ _ => rfl)
      mergeRoute_idem mergeRoute_self _ _ hr
  · exact mergeKeyed_idem Prod.fst (fun p q => (p.1, unionList p.2 q.2))
      (fun _ _ => rfl)
      (fun p q => by simp [unionList_idem])
      (fun p => by simp [unionList_self]) _ _ hm
  · exact mergeKeyed_idem Prod.fst (fun p q => (p.1, unionList p.2 q.2))
      (fun _ _ => rfl)
      (fun p q => by simp [unionList_idem])
      (fun p => by simp [unionList_self]) _ _ hs

theorem unionList_eq_append_filter [DecidableEq α] {d : List α}
    (hnd : d.Nodup) (b : List α) :
    unionList b d = b ++ d.filter (fun x => decide (x ∉ b)) := by
  induction d generalizing b with
  | nil => simp [unionList]
  | cons y ys ih =>
    obtain ⟨hy_ys, hys⟩ := List.nodup_cons.mp hnd
    simp only [unionList]
    by_cases hy : y ∈ b
    · rw [if_pos hy, ih hys]
      simp [hy]
    · rw [if_neg hy, ih hys]
      have hfil : ys.filter (fun x => decide (x ∉ b ++ [y]))
          = ys.filter (fun x => decide (x ∉ b)) := by
        refine List.filter_congr fun x hx => ?_
        have hxy : x ≠ y := fun he => hy_ys (he ▸ hx)
        simp [List.mem_append, hxy]
      have hrhs : (y :: ys).filter (fun x => decide (x ∉ b))
          = y :: ys.filter (fun x => decide (x ∉ b)) := by
        simp [hy]
      rw [hfil, hrhs, List.append_assoc, List.singleton_append]

theorem filter_key_eq_singleton [DecidableEq κ] (key : α → κ) {l : List α}
    (hnd : (l.map key).Nodup) {r : α} (hr : r ∈ l) :
    l.filter (fun x => decide (key x = key r)) = [r] := by
  induction l with
  | nil => cases hr
  | cons a rest ih =>
    obtain ⟨ha, hrest⟩ := List.nodup_cons.mp hnd
    rcases List.mem_cons.mp hr with rfl | hmem
    · rw [List.filter_cons, if_pos (by simp)]
      have hnil : rest.filter (fun x => decide (key x = key r)) = [] := by
        rw [List.filter_eq_nil_iff]
        intro x hx hkx
        refine ha ?_
        rw [← of_decide_eq_true hkx]
        exact List.mem_map_of_mem key hx
      rw [hnil]
    · have hne : key a ≠ key r := by
        intro he
        exact ha (he ▸ List.mem_map_of_mem key hmem)
      rw [List.filter_cons, if_neg (by simp [hne])]
      exact ih hrest hmem

/-- C2: merging a delta that contains a route with the same path as a
base route yields exactly one route at that path — filtering the merged
routes on the path gives a singleton — whose component list is the base
components in base order followed by the delta-only components in delta
order (an array union, not a replacement). Well-formedness hypotheses:
unique route paths on both sides, no duplicate components in the delta
route. -/
theorem merge_same_path_unions_components (b : Blueprint) (d : Delta)
    (r dr : Route)
    (hb : (b.routes.map Route.path).Nodup)
    (hd : ((d.routes.getD []).map Route.path).Nodup)
    (hr : r ∈ b.routes) (hdr : dr ∈ d.routes.getD [])
    (hp : dr.path = r.path)
    (hc : dr.components.Nodup) :
    (merge b d).routes.filter (fun x => decide (x.path = r.path))
      = [{ path := r.path, title := dr.title <|> r.title,
           components := r.components
             ++ dr.components.filter (fun c => decide (c ∉ r.components)) }] := by
  have hroutes : (merge b d).routes
      = mergeKeyed Route.path mergeRoute b.routes (d.routes.getD []) := rfl
  rw [hroutes, mergeKeyed, List.filter_append]
  have h1 : ((b.routes.map
        (mergeKeyedUpd Route.path mergeRoute (d.routes.getD []))).filter
          (fun x => decide (x.path = r.path)))
      = [mergeKeyedUpd Route.path mergeRoute (d.routes.getD []) r] := by
    rw [List.filter_map]
    have hcomp : ((fun x : Route => decide (x.path = r.path))
        ∘ (mergeKeyedUpd Route.path mergeRoute (d.routes.getD [])))
        = fun x : Route => decide (x.path = r.path) := by
      funext x
      simp only [Function.comp]
      rw [key_mergeKeyedUpd Route.path mergeRoute (fun _ _ => rfl)]
    rw [hcomp, filter_key_eq_singleton Route.path hb hr, List.map_singleton]
  have h2 : (((d.routes.getD []).filter
        (fun dx => !(b.routes.any (fun rx => decide (rx.path = dx.path))))).filter
          (fun x => decide (x.path = r.path))) = [] := by
    rw [List.filter_filter, List.filter_eq_nil_iff]
    intro x hx hbad
    rw [Bool.and_eq_true] at hbad
    obtain ⟨hxp, hnomatch⟩ := hbad
    rw [Bool.not_eq_true', List.any_eq_false] at hnomatch
    have hxr : x.path = r.path := of_decide_eq_true hxp
    have := hnomatch r hr
    simp [hxr] at this
  have hupd : mergeKeyedUpd Route.path mergeRoute (d.routes.getD []) r
      = mergeRoute r dr := by
    unfold mergeKeyedUpd
    rw [← hp, find_first_of_nodup_key Route.path hd hdr]
  rw [h1, h2, hupd, List.append_nil]
  have hmr : mergeRoute r dr
      = { path := r.path, title := (dr.title <|> r.title),
          components := unionList r.components dr.components } := rfl
  rw [hmr, unionList_eq_append_filter hc]

/-! ### Example blueprint and delta (the spec's §8 scenario) -/

/-- The component `{type:"text",value:"hi"}`. -/
def textHi : Component := { type := some "text", value := some "hi" }

/-- The component `{type:"button",label:"Go"}`. -/
def buttonGo : Component := { type := some "button", label := some "Go" }

/-- The route `{path:"#/",title:"Home",components:[text hi]}`. -/
def routeHi : Route :=
  { path := some "#/", title := some "Home", components := [textHi] }

/-- The delta route with the same path and one extra button. -/
def routeHiGo : Route :=
  { path := some "#/", title := some "Home", components := [textHi, buttonGo] }

/-- A blueprint holding only `routeHi`. -/
def bpEx : Blueprint := { routes := [routeHi] }

/-- The second delta of the scenario. -/
def deltaEx : Delta := { routes := some [routeHiGo] }

/-- Witness for C1 at the scenario blueprint and delta. -/
theorem merge_idempotent_witness :
    ((deltaEx.routes.getD []).map Route.path).Nodup
    ∧ merge (merge bpEx deltaEx) deltaEx = merge bpEx deltaEx :=
  ⟨by decide, merge_idempotent bpEx deltaEx (by decide) (by decide) (by decide)⟩

/-- Witness for C2 at the scenario blueprint and delta: the merged
route at `#/` is unique and carries the union `[text hi, button Go]`. -/
theorem merge_same_path_witness :
    (merge bpEx deltaEx).routes.filter (fun x => decide (x.path = routeHi.path))
      = [{ path := routeHi.path, title := (routeHiGo.title <|> routeHi.title),
           components := routeHi.components
             ++ routeHiGo.components.filter
                  (fun c => decide (c ∉ routeHi.components)) }] :=
  merge_same_path_unions_components bpEx deltaEx routeHi routeHiGo
    (by decide) (by decide) (by decide) (by decide) (by decide) (by decide)

/-! ### The streaming event sequence (C8) -/

theorem isTerminal_terminalEvent (b : BuildRun) :
    isTerminal (terminalEvent b) = true := by
  rcases h : b.result with m | hu_du
  · simp [terminalEvent, h, isTerminal]
  · rcases hu_du with ⟨hu, du⟩
    simp [terminalEvent, h, isTerminal]

theorem isPreview_terminalEvent (b : BuildRun) :
    isPreview (terminalEvent b) = false := by
  rcases h : b.result with m | hu_du
  · simp [terminalEvent, h, isPreview]
  · rcases hu_du with ⟨hu, du⟩
    simp [terminalEvent, h, isPreview]

theorem prefix_events_not_special (b : BuildRun) :
    ∀ e ∈ (b.statuses.map fun pm => BuildEvent.status pm.1 pm.2)
        ++ b.files.flatMap fileEvents,
      isPreview e = false ∧ isTerminal e = false := by
  intro e he
  rcases List.mem_append.mp he with h | h
  · obtain ⟨pm, _, rfl⟩ := List.mem_map.mp h
    exact ⟨rfl, rfl⟩
  · obtain ⟨f, _, hf⟩ := List.mem_flatMap.mp h
    rcases List.mem_cons.mp hf with rfl | hf2
    · exact ⟨rfl, rfl⟩
    rcases List.mem_append.mp hf2 with h3 | h3
    · obtain ⟨ln, _, rfl⟩ := List.mem_map.mp h3
      exact ⟨rfl, rfl⟩
    · rw [List.mem_singleton.mp h3]
      exact ⟨rfl, rfl⟩

/-- C8: every streamed build emits exactly one `preview_ready` event
and exactly one terminal event (`build_complete` with both urls, or
`error` with a message), and the terminal event comes last. -/
theorem stream_events_one_preview_one_terminal_last (b : BuildRun) :
    (streamEvents b).countP isPreview = 1
    ∧ (streamEvents b).countP isTerminal = 1
    ∧ (streamEvents b).getLast? = some (terminalEvent b)
    ∧ isTerminal (terminalEvent b) = true := by
  have hpre := prefix_events_not_special b
  have hzero_p : ((b.statuses.map fun pm => BuildEvent.status pm.1 pm.2)
      ++ b.files.flatMap fileEvents).countP isPreview = 0 :=
    List.countP_eq_zero.mpr fun e he => by simp [(hpre e he).1]
  have hzero_t : ((b.statuses.map fun pm => BuildEvent.status pm.1 pm.2)
      ++ b.files.flatMap fileEvents).countP isTerminal = 0 :=
    List.countP_eq_zero.mpr fun e he => by simp [(hpre e he).2]
  refine ⟨?_, ?_, ?_, isTerminal_terminalEvent b⟩
  · rw [streamEvents, List.countP_append, List.countP_append, List.countP_append]
    rw [← List.countP_append, hzero_p]
    have h1 : List.countP isPreview [BuildEvent.previewReady b.preview] = 1 := by
      simp [List.countP_cons, List.countP_nil, isPreview]
    have h2 : List.countP isPreview [terminalEvent b] = 0 := by
      simp [List.countP_cons, List.countP_nil, isPreview_terminalEvent b]
    rw [h1, h2]
  · rw [streamEvents, List.countP_append, List.countP_append, List.countP_append]
    rw [← List.countP_append, hzero_t]
    have h1 : List.countP isTerminal [BuildEvent.previewReady b.preview] = 0 := by
      simp [List.countP_cons, List.countP_nil, isTerminal]
    have h2 : List.countP isTerminal [terminalEvent b] = 1 := by
      simp [List.countP_cons, List.countP_nil, isTerminal_terminalEvent b]
    rw [h1, h2]
  · rw [streamEvents]
    exact List.getLast?_concat _

/-! ### Lemmas about runtime collections and the submit path -/

theorem lookup_setAssoc_self (cs : List (String × α)) (k : String) (v : α) :
    (setAssoc cs k v).lookup k = some v := by
  induction cs with
  | nil => simp [setAssoc, List.lookup]
  | cons p rest ih =>
    obtain ⟨k', v'⟩ := p
    simp only [setAssoc]
    by_cases hk : k' = k
    · rw [if_pos hk]
      simp [List.lookup]
    · rw [if_neg hk]
      have : (k == k') = false := by
        simp [beq_eq_false_iff_ne]
        exact fun he => hk he.symm
      simp [List.lookup, this, ih]

theorem lookup_setAssoc_ne (cs : List (String × α)) {k k' : String}
    (h : k' ≠ k) (v : α) :
    (setAssoc cs k v).lookup k' = cs.lookup k' := by
  induction cs with
  | nil =>
    simp [setAssoc, List.lookup, beq_eq_false_iff_ne.mpr h]
  | cons p rest ih =>
    obtain ⟨k0, v0⟩ := p
    simp only [setAssoc]
    by_cases hk : k0 = k
    · rw [if_pos hk]
      subst hk
      simp [List.lookup, beq_eq_false_iff_ne.mpr h]
    · rw [if_neg hk]
      simp [List.lookup, ih]

theorem lookup_append_single_self (cs : List (String × α)) (k : String) (v : α)
    (h : cs.lookup k = none) :
    (cs ++ [(k, v)]).lookup k = some v := by
  induction cs with
  | nil => simp [List.lookup]
  | cons p rest ih =>
    obtain ⟨k0, v0⟩ := p
    simp only [List.cons_append, List.lookup]
    rcases hbeq : (k == k0) with _ | _
    · refine ih ?_
      simpa [List.lookup, hbeq] using h
    · simp [List.lookup, hbeq] at h

theorem lookup_append_single_ne (cs : List (String × α)) {k k' : String}
    (h : k' ≠ k) (v : α) :
    (cs ++ [(k, v)]).lookup k' = cs.lookup k' := by
  induction cs with
  | nil => simp [List.lookup, beq_eq_false_iff_ne.mpr h]
  | cons p rest ih =>
    obtain ⟨k0, v0⟩ := p
    simp only [List.cons_append, List.lookup]
    rcases hbeq : (k' == k0) with _ | _ <;> simp [hbeq, ih]

theorem lookup_pushColl_self (cs : List (String × List Record)) (k : String)
    (r : Record) :
    (pushColl cs k r).lookup k = some ((cs.lookup k).getD [] ++ [r]) := by
  unfold pushColl
  rcases h : cs.lookup k with _ | rs
  · simp [lookup_append_single_self cs k _ h]
  · simp [lookup_setAssoc_self]

theorem lookup_pushColl_ne (cs : List (String × List Record)) {k k' : String}
    (h : k' ≠ k) (r : Record) :
    (pushColl cs k r).lookup k' = cs.lookup k' := by
  unfold pushColl
  rcases hk : cs.lookup k with _ | rs
  · exact lookup_append_single_ne cs h _
  · exact lookup_setAssoc_ne cs h _

theorem lookup_upsert_self (data : Record) (k : String) (v : Value) :
    (upsert data k v).lookup k = some v := by
  induction data with
  | nil => simp [upsert, List.lookup]
  | cons p rest ih =>
    obtain ⟨k0, v0⟩ := p
    simp only [upsert]
    by_cases hk : k0 = k
    · rw [if_pos hk]
      subst hk
      simp [List.lookup]
    · rw [if_neg hk]
      have : (k == k0) = false := by
        simp [beq_eq_false_iff_ne]
        exact fun he => hk he.symm
      simp [List.lookup, this, ih]

/-- The state after one record is pushed onto one collection. -/
def statePush (st : State) (coll : String) (rec : Record) : State :=
  { st with collections := pushColl st.collections coll rec }

/-- `save()`: the in-memory state together with its persisted copy. -/
def saved (st : State) : Client :=
  { state := st, storage := some st }

/-- The effect chosen after a successful submit: navigate to the
redirect when truthy, else re-render in place. -/
def redirectEffect (redirect : Option String) : Effect :=
  match redirect with
  | some r => if r = "" then Effect.rerender else Effect.navigateTo r
  | none => Effect.rerender

/-- The submit branch of `handleAction`, evaluated: when the form is
found, the extracted record (with the `Date.now()` identifier) is
appended to `collections[cfg.collection || 'posts']`, the new state is
saved, and the effect follows the redirect. -/
theorem handleAction_submit (cfg : ActionCfg) (dom : Dom) (cl : Client)
    (now : Nat) (form : FormEl)
    (hform : ((dom.lookup (orFalsyStr cfg.formId "__active_form"))
      <|> cfg.formEl) = some form) :
    handleAction "submit" cfg dom cl now
      = (saved (statePush cl.state (orFalsyStr cfg.collection "posts")
          (mkRecord (extract form) now)),
         some (redirectEffect cfg.redirect)) := by
  unfold handleAction saved statePush redirectEffect
  rw [if_neg (by decide), if_pos rfl, hform]

/-- C3: submitting a form component whose target collection is `cname`
(and whose generated form carries no DOM id, so `getElementById`
misses) appends exactly one new record — the extracted named input
values plus the generation-time identifier — to
`RuntimeState.collections[cname]`, leaves every other collection
unchanged, persists the RuntimeState (`save()` writes the new state to
storage), and then navigates to the redirect when one is given, else
re-renders the current route in place. -/
theorem form_submit_appends_persists_navigates (c : Component)
    (form : FormEl) (dom : Dom) (cl : Client) (now : Nat) (cname : String)
    (hdom : dom.lookup "__active_form" = none)
    (hc : c.collection = some cname) (hne : cname ≠ "") :
    (((submitForm c form dom cl now).1.state.collections.lookup cname).getD []
        = ((cl.state.collections.lookup cname).getD [])
          ++ [mkRecord (extract form) now])
    ∧ (∀ k, k ≠ cname →
        (submitForm c form dom cl now).1.state.collections.lookup k
          = cl.state.collections.lookup k)
    ∧ ((submitForm c form dom cl now).1.storage
        = some (submitForm c form dom cl now).1.state)
    ∧ ((submitForm c form dom cl now).2
        = some (redirectEffect
            (orFalsyOpt c.redirect (c.submit.bind SubmitSpec.to)))) := by
  have hcfg : formSubmitCfg c form
      = { «to» := none, formId := none, formEl := some form,
          collection := some cname,
          redirect := orFalsyOpt c.redirect (c.submit.bind SubmitSpec.to) } := by
    simp [formSubmitCfg, orFalsyOpt, orFalsyStr, hc, hne]
  have hform : ((dom.lookup
      (orFalsyStr (formSubmitCfg c form).formId "__active_form"))
      <|> (formSubmitCfg c form).formEl) = some form := by
    rw [hcfg]
    simp [orFalsyStr, hdom]
  have hsf : submitForm c form dom cl now
      = (saved (statePush cl.state
          (orFalsyStr (formSubmitCfg c form).collection "posts")
          (mkRecord (extract form) now)),
         some (redirectEffect (formSubmitCfg c form).redirect)) :=
    handleAction_submit (formSubmitCfg c form) dom cl now form hform
  rw [hcfg] at hsf
  have hcoll : orFalsyStr (some cname) "posts" = cname := by
    simp [orFalsyStr, hne]
  simp only [hcoll] at hsf
  refine ⟨?_, ?_, ?_, ?_⟩
  · simp [hsf, saved, statePush, lookup_pushColl_self]
  · intro k hk
    simp [hsf, saved, statePush, lookup_pushColl_ne _ hk]
  · simp [hsf, saved]
  · simp [hsf]

/-- The scenario form: `{type:"form",collection:"leads",redirect:"#/thanks"}`. -/
def leadsForm : Component :=
  { type := some "form", collection := some "leads",
    redirect := some "#/thanks" }

/-- A one-field form element whose input is named `name`. -/
def nameForm : FormEl := [{ name := some "name", value := "Ada" }]

/-- A freshly booted client with no persisted state and no sample. -/
def cl0 : Client := boot {} {}

/-- Witness for C3 at the scenario: one record lands in `leads` and the
client navigates to `#/thanks`. -/
theorem form_submit_witness :
    (((submitForm leadsForm nameForm [] cl0 7).1.state.collections.lookup
        "leads").getD [] = [mkRecord (extract nameForm) 7])
    ∧ ((submitForm leadsForm nameForm [] cl0 7).2
        = some (Effect.navigateTo "#/thanks")) := by
  have h := form_submit_appends_persists_navigates leadsForm nameForm [] cl0 7
    "leads" rfl rfl (by decide)
  constructor
  · have h1 := h.1
    rw [show cl0.state.collections.lookup "leads" = none from by decide] at h1
    simpa using h1
  · have h2 := h.2.2.2
    rw [h2]
    decide

/-- C10: a form component that declares no target collection (neither
`collection` nor `submit.collection`) writes its record into the
collection named `forms`; a button-triggered submit with no collection
configured writes into the collection named `posts`. -/
theorem default_collections_forms_and_posts (c bc : Component)
    (form bform : FormEl) (dom : Dom) (cl : Client) (now : Nat)
    (hdom : dom.lookup "__active_form" = none)
    (hc1 : c.collection = none) (hc2 : c.submit.bind SubmitSpec.collection = none)
    (hb1 : bc.action = some "submit") (hb2 : bc.collection = none)
    (hbf : dom.lookup (orFalsyStr bc.formId "__active_form") = some bform) :
    (((submitForm c form dom cl now).1.state.collections.lookup "forms").getD []
        = ((cl.state.collections.lookup "forms").getD [])
          ++ [mkRecord (extract form) now])
    ∧ (((buttonClick bc dom cl now).1.state.collections.lookup "posts").getD []
        = ((cl.state.collections.lookup "posts").getD [])
          ++ [mkRecord (extract bform) now]) := by
  constructor
  · have hcfg : formSubmitCfg c form
        = { «to» := none, formId := none, formEl := some form,
            collection := some "forms",
            redirect := orFalsyOpt c.redirect (c.submit.bind SubmitSpec.to) } := by
      simp [formSubmitCfg, orFalsyOpt, orFalsyStr, hc1, hc2]
    have hform : ((dom.lookup
        (orFalsyStr (formSubmitCfg c form).formId "__active_form"))
        <|> (formSubmitCfg c form).formEl) = some form := by
      rw [hcfg]
      simp [orFalsyStr, hdom]
    have hsf : submitForm c form dom cl now
        = (saved (statePush cl.state
            (orFalsyStr (formSubmitCfg c form).collection "posts")
            (mkRecord (extract form) now)),
           some (redirectEffect (formSubmitCfg c form).redirect)) :=
      handleAction_submit (formSubmitCfg c form) dom cl now form hform
    rw [hcfg] at hsf
    simp [hsf, saved, statePush, orFalsyStr, lookup_pushColl_self]
  · have hact : orFalsyStr bc.action "navigate" = "submit" := by
      simp [orFalsyStr, hb1]
    have hform : ((dom.lookup
        (orFalsyStr (buttonCfg bc).formId "__active_form"))
        <|> (buttonCfg bc).formEl) = some bform := by
      simpa [buttonCfg] using hbf
    have hbtn : buttonClick bc dom cl now
        = (saved (statePush cl.state
            (orFalsyStr (buttonCfg bc).collection "posts")
            (mkRecord (extract bform) now)),
           some (redirectEffect (buttonCfg bc).redirect)) := by
      rw [buttonClick, hact]
      exact handleAction_submit (buttonCfg bc) dom cl now bform hform
    simp [hbtn, saved, statePush, buttonCfg, hb2, orFalsyStr,
      lookup_pushColl_self]

/-- A form component with no collection configured anywhere. -/
def plainForm : Component := { type := some "form" }

/-- A button whose action is `submit`, pointing at form id `f1`. -/
def submitBtn : Component :=
  { type := some "button", action := some "submit", formId := some "f1" }

/-- A DOM holding one form under id `f1`. -/
def domEx : Dom := [("f1", nameForm)]

/-- Witness for C10: the defaulted form lands in `forms`, the defaulted
button submit lands in `posts`. -/
theorem default_collections_witness :
    (((submitForm plainForm nameForm domEx cl0 3).1.state.collections.lookup
        "forms").getD []
      = ((cl0.state.collections.lookup "forms").getD [])
        ++ [mkRecord (extract nameForm) 3])
    ∧ (((buttonClick submitBtn domEx cl0 3).1.state.collections.lookup
        "posts").getD []
      = ((cl0.state.collections.lookup "posts").getD [])
        ++ [mkRecord (extract nameForm) 3]) :=
  default_collections_forms_and_posts plainForm submitBtn nameForm nameForm
    domEx cl0 3 (by decide) rfl rfl rfl rfl (by decide)

/-- C4: a component whose kind is not one of the known variants renders
as the labeled inert placeholder `[t]` (the render function is total,
so nothing is thrown), and every component of a route is still rendered
— the route's node list has one node per component. -/
theorem unknown_kind_renders_placeholder (c : Component) (st : State)
    (h : kindOf c ∉ knownKinds) :
    renderComponent c st = Node.placeholderNode (kindOf c)
    ∧ ∀ r : Route, (renderRoute r st).length = r.components.length := by
  constructor
  · simp only [knownKinds, List.mem_cons, List.not_mem_nil, or_false,
      not_or] at h
    obtain ⟨h1, h2, h3, h4, h5, h6, h7, h8, h9, h10, h11, h12, h13, h14⟩ := h
    simp only [renderComponent]
    rw [if_neg h1, if_neg h2, if_neg h3, if_neg h4, if_neg h5, if_neg h6,
      if_neg h7, if_neg h8, if_neg h9, if_neg h10, if_neg h11, if_neg h12,
      if_neg h13, if_neg h14]
  · intro r
    simp [renderRoute]

/-- The spec's robustness probe: a component of kind `unknown_kind_xyz`. -/
def unknownComp : Component := { type := some "unknown_kind_xyz" }

/-- Witness for C4 at the probe component. -/
theorem unknown_kind_witness :
    (kindOf unknownComp ∉ knownKinds)
    ∧ renderComponent unknownComp cl0.state
        = Node.placeholderNode (kindOf unknownComp) :=
  ⟨by decide,
   (unknown_kind_renders_placeholder unknownComp cl0.state (by decide)).1⟩

/-- C6: runtime state is seeded from the sample data only when the
persisted copy is absent — a persisted `collections` object survives a
reload untouched (never reseeded or overwritten), and the sample seeds
`collections` only when nothing was persisted. -/
theorem runtime_seeded_only_when_absent (p : Persisted) (sample : SampleData) :
    (∀ cols, p.collections = some cols →
        (initState p sample).collections = cols)
    ∧ (p.collections = none →
        (initState p sample).collections = sample.collections.getD []) := by
  constructor
  · intro cols h
    simp [initState, h]
  · intro h
    simp [initState, h]

/-- A persisted state carrying a user-edited `leads` collection. -/
def persistedEx : Persisted :=
  { collections := some [("leads", [[("name", Value.str "kept")]])] }

/-- A sample that would reseed `leads` and `posts` if it were applied. -/
def sampleEx : SampleData :=
  { collections := some [("leads", []), ("posts", [])] }

/-- Witness for C6: the persisted `leads` rows survive the reload. -/
theorem runtime_seed_witness :
    (initState persistedEx sampleEx).collections
      = [("leads", [[("name", Value.str "kept")]])] :=
  (runtime_seeded_only_when_absent persistedEx sampleEx).1 _ rfl

/-- A one-field form whose input holds `a`. -/
def formA : FormEl := [{ name := some "name", value := "a" }]

/-- A one-field form whose input holds `b`. -/
def formB : FormEl := [{ name := some "name", value := "b" }]

/-- The client after submitting `formA` at timestamp 5. -/
def clA : Client := (submitForm leadsForm formA [] cl0 5).1

/-- The client after additionally submitting `formB` at timestamp 5. -/
def clB : Client := (submitForm leadsForm formB [] clA 5).1

/-- C7 counterexample: two distinct records created by form submissions
in the same millisecond (`Date.now()` returns 5 twice) carry the same
identifier — the generation-time identifier is reused. -/
theorem duplicate_identifier_counterexample :
    ((clB.state.collections.lookup "leads").getD []
      = [[("name", Value.str "a"), ("id", Value.num 5)],
         [("name", Value.str "b"), ("id", Value.num 5)]])
    ∧ (([("name", Value.str "a"), ("id", Value.num 5)] : Record)
        ≠ [("name", Value.str "b"), ("id", Value.num 5)])
    ∧ (([("name", Value.str "a"), ("id", Value.num 5)] : Record).lookup "id"
        = ([("name", Value.str "b"), ("id", Value.num 5)] : Record).lookup
            "id") :=
  ⟨by decide, by decide, by decide⟩

/-- C7 amended: a record's identifier is exactly its generation
timestamp (`Date.now()`), so records created at distinct timestamps
have distinct identifiers; identifiers repeat only within the same
millisecond. -/
theorem distinct_timestamps_distinct_identifiers (d1 d2 : Record)
    (n1 n2 : Nat) (h : n1 ≠ n2) :
    (mkRecord d1 n1).lookup "id" ≠ (mkRecord d2 n2).lookup "id" := by
  rw [mkRecord, mkRecord, lookup_upsert_self, lookup_upsert_self]
  simp [h]

/-- Witness for the amended C7 at timestamps 1 and 2. -/
theorem distinct_timestamps_witness :
    (mkRecord [] 1).lookup "id" ≠ (mkRecord [] 2).lookup "id" :=
  distinct_timestamps_distinct_identifiers [] [] 1 2 (by decide)

/-- C9 amended: a `list` or `table` component whose referenced
collection is absent renders an empty result set (no items, no rows)
rather than an error, and every component of the route still renders;
a `grid`, however, ignores its collection reference entirely and always
renders the images of `state.posts`. -/
theorem missing_collection_renders_empty (c : Component) (st : State)
    (cname : String) :
    ((kindOf c = "list" → c.items = none → c.collection = some cname →
        cname ≠ "" → st.collections.lookup cname = none →
        renderComponent c st = Node.listNode [])
    ∧ (kindOf c = "table" → c.rows = none → c.collection = some cname →
        cname ≠ "" → st.collections.lookup cname = none →
        renderComponent c st = Node.tableNode (c.columns.getD []) [])
    ∧ (kindOf c = "grid" →
        renderComponent c st = Node.gridNode (gridImgs st))
    ∧ (∀ r : Route, (renderRoute r st).length = r.components.length)) := by
  refine ⟨?_, ?_, ?_, ?_⟩
  · intro ht hitems hcoll hne hlook
    simp [renderComponent, ht, bindItems, hitems, hcoll, hne, hlook]
  · intro ht hrows hcoll hne hlook
    simp [renderComponent, ht, renderTable, hrows, hcoll, hne, hlook]
  · intro ht
    simp [renderComponent, ht]
  · intro r
    simp [renderRoute]

/-- A grid that names a collection which does not exist. -/
def gridComp : Component := { type := some "grid", collection := some "ghost" }

/-- A state with no collections at all but one post with an image. -/
def stGrid : State :=
  { currentUser := { username := "you", name := none }, users := [],
    posts := [{ id := some 1, user := some "you", img := some "p.png" }],
    notifications := [], messages := [], collections := [] }

/-- C9 counterexample: the grid's referenced collection `ghost` is
absent, yet rendering yields one image (taken from `state.posts`), not
an empty result set. -/
theorem grid_ignores_missing_collection_counterexample :
    (stGrid.collections.lookup "ghost" = none)
    ∧ (renderComponent gridComp stGrid = Node.gridNode ["p.png"])
    ∧ (Node.gridNode ["p.png"] ≠ Node.gridNode []) :=
  ⟨by decide, by decide, by decide⟩

/-- Witness for the amended C9: a list over the absent collection
`ghost` renders zero items in `stGrid`. -/
theorem missing_collection_witness :
    renderComponent { type := some "list", collection := some "ghost" }
        stGrid = Node.listNode [] :=
  (missing_collection_renders_empty
    { type := some "list", collection := some "ghost" } stGrid "ghost").1
    (by decide) rfl rfl (by decide) (by decide)

/-- A route whose path is not `#/` — the blueprint's first route. -/
def routeA : Route :=
  { path := some "#/home", title := some "A",
    components := [{ type := some "text", value := some "A" }] }

/-- A later route registered at `#/`. -/
def routeB : Route :=
  { path := some "#/", title := some "B",
    components := [{ type := some "text", value := some "B" }] }

/-- A blueprint's routes where the first route is not at `#/`. -/
def routesAB : List Route := [routeA, routeB]

/-- C5 counterexample: navigating to the unknown path `#/xyz` renders
the route registered at `#/` — the second route — which is neither the
first route of the blueprint nor the not-found placeholder. -/
theorem router_unknown_path_counterexample :
    (router (some "#/xyz") routesAB = routeB)
    ∧ (routesAB.head? = some routeA)
    ∧ (routeB ≠ routeA)
    ∧ (routeB ≠ notFoundRoute) :=
  ⟨by decide, by decide, by decide, by decide⟩

/-- C5 amended: on navigation to a path with no matching route, the
router renders the route registered at `#/` when one exists, else the
explicit not-found placeholder; the first route serves as the default
only when there is no current hash at all. -/
theorem router_unknown_path_falls_back_to_root (hs : String)
    (rs : List Route) (hne : hs ≠ "")
    (hmiss : (routeMap rs).lookup ("#" ++ dropFirstHash hs) = none) :
    router (some hs) rs = ((routeMap rs).lookup "#/").getD notFoundRoute := by
  unfold router
  simp [orFalsyOpt, orFalsyStr, hne, hmiss]

/-- Witness for the amended C5 at the two-route blueprint. -/
theorem router_unknown_path_witness :
    router (some "#/xyz") routesAB
      = ((routeMap routesAB).lookup "#/").getD notFoundRoute :=
  router_unknown_path_falls_back_to_root "#/xyz" routesAB (by decide)
    (by decide)

end AgentPro
